import Mathlib

/-!
Shallow embedding of the marker-store and route-optimizer core of the
`zoneamento` application (`src/App.tsx`).

Coordinates are modelled as rational numbers (every JavaScript float is a
rational); the haversine distance is modelled over the real numbers. The
nearest-neighbour optimizer is defined generically over any distance
function into a linear order, exactly mirroring the scan-and-splice loop
of `calculateOptimizedRoute`, and is instantiated at the haversine
distance `getDistance` where a claim mentions it.
-/

/-- A point record (`MapMarker` in `src/types.ts`): `id`, coordinates,
optional `name` and `icon`. -/
structure Marker where
  id : String
  latitude : ℚ
  longitude : ℚ
  name : Option String := none
  icon : Option String := none
deriving DecidableEq, Repr

instance : Inhabited Marker := ⟨⟨"", 0, 0, none, none⟩⟩

/-- The top-level state cells of `App`: canonical collection, selection,
drawing flag, derived route, designated start id. -/
structure AppState where
  markers : List Marker
  selectedMarkers : List Marker
  isDrawing : Bool
  optimizedRoute : Option (List Marker)
  startMarkerId : Option String
deriving DecidableEq, Repr

/-- `toRad` from `App.tsx`: degrees to radians. -/
noncomputable def toRad (value : ℝ) : ℝ := value * Real.pi / 180

/-- JavaScript `Math.atan2 y x` (idealised over the reals). -/
noncomputable def atan2 (y x : ℝ) : ℝ :=
  if 0 < x then Real.arctan (y / x)
  else if x < 0 then
    (if 0 ≤ y then Real.arctan (y / x) + Real.pi else Real.arctan (y / x) - Real.pi)
  else
    (if 0 < y then Real.pi / 2 else if y < 0 then -(Real.pi / 2) else 0)

/-- `getDistance` from `App.tsx`: haversine great-circle distance with
Earth radius `R = 6371` km:
`a = sin²(dLat/2) + cos lat1 · cos lat2 · sin²(dLon/2)`,
`c = 2·atan2(√a, √(1−a))`, distance `R·c`. -/
noncomputable def getDistance (point1 point2 : Marker) : ℝ :=
  let lat1 : ℝ := (point1.latitude : ℝ)
  let lon1 : ℝ := (point1.longitude : ℝ)
  let lat2 : ℝ := (point2.latitude : ℝ)
  let lon2 : ℝ := (point2.longitude : ℝ)
  let R : ℝ := 6371
  let dLat := toRad (lat2 - lat1)
  let dLon := toRad (lon2 - lon1)
  let a := Real.sin (dLat / 2) * Real.sin (dLat / 2) +
    Real.cos (toRad lat1) * Real.cos (toRad lat2) *
    Real.sin (dLon / 2) * Real.sin (dLon / 2)
  let c := 2 * atan2 (Real.sqrt a) (Real.sqrt (1 - a))
  R * c

/-- The inner `for` loop of `calculateOptimizedRoute`: scans the rest of
the pool keeping the index and distance of the best marker so far, and
updates only on strictly smaller distance (so ties keep the earlier
marker). `i` is the pool index of the head of `l`. -/
def scanNearest {α : Type} [LinearOrder α] (dc : Marker → α) :
    List Marker → Nat → Nat × α → Nat × α
  | [], _, best => best
  | m :: rest, i, best =>
    if dc m < best.2 then scanNearest dc rest (i + 1) (i, dc m)
    else scanNearest dc rest (i + 1) best

/-- Index and distance of the nearest pool member: the scan starts from
`remainingMarkers[0]` as the initial `nearestMarker`/`minDistance`. -/
def nearestScan {α : Type} [LinearOrder α] (dc : Marker → α)
    (p : Marker) (ps : List Marker) : Nat × α :=
  scanNearest dc ps 1 (0, dc p)

/-- The `while` loop of `calculateOptimizedRoute`: repeatedly pick the
nearest remaining marker (first-encountered on ties), append it to the
route and splice it out of the pool at its index. -/
def nnLoop {α : Type} [LinearOrder α] (d : Marker → Marker → α)
    (c : Marker) (pool : List Marker) : List Marker :=
  match pool with
  | [] => []
  | p :: ps =>
    ((p :: ps).getD (nearestScan (d c) p ps).1 p) ::
      nnLoop d ((p :: ps).getD (nearestScan (d c) p ps).1 p)
        ((p :: ps).eraseIdx (nearestScan (d c) p ps).1)
termination_by pool.length
decreasing_by
  have key : ∀ (l : List Marker) (i : Nat) (best : Nat × α), best.1 < i →
      (scanNearest (d c) l i best).1 < i + l.length := by
    intro l
    induction l with
    | nil => intro i best h; simpa using h
    | cons m rest ih =>
      intro i best h
      simp only [scanNearest]
      by_cases hc : d c m < best.2
      · simp only [hc, if_true]
        have := ih (i + 1) (i, d c m) (Nat.lt_succ_self i)
        simp only [List.length_cons] at *
        omega
      · simp only [hc, if_false]
        have := ih (i + 1) best (Nat.lt_succ_of_lt h)
        simp only [List.length_cons] at *
        omega
  have hlt : (nearestScan (d c) p ps).1 < (p :: ps).length := by
    have := key ps 1 (0, d c p) Nat.one_pos
    simpa [nearestScan, Nat.add_comm] using this
  have := List.length_eraseIdx_add_one hlt
  omega

/-- `calculateOptimizedRoute` from `App.tsx`: find the start marker by
id (returning `none` when absent), drop every marker carrying the start
id from the pool, and run the greedy nearest-neighbour loop. Generic in
the distance function `d`. -/
def calculateOptimizedRoute {α : Type} [LinearOrder α]
    (d : Marker → Marker → α) (markers : List Marker) (startId : String) :
    Option (List Marker) :=
  match markers.find? (fun m => m.id == startId) with
  | none => none
  | some startMarker =>
    let remainingMarkers := markers.filter (fun m => !(m.id == startId))
    some (startMarker :: nnLoop d startMarker remainingMarkers)

/-- `handleDataLoaded` from `App.tsx`: replace the collection. -/
def handleDataLoaded (newMarkers : List Marker) (s : AppState) : AppState :=
  { s with markers := newMarkers }

/-- `handleOptimizeRoute` from `App.tsx`: record the new start id; a
falsy id (null or the empty string) clears the route, otherwise the
route over the current selection is computed. -/
def handleOptimizeRoute {α : Type} [LinearOrder α] (d : Marker → Marker → α)
    (newStartMarkerId : Option String) (s : AppState) : AppState :=
  match newStartMarkerId with
  | none => { s with startMarkerId := none, optimizedRoute := none }
  | some sid =>
    if sid = "" then { s with startMarkerId := some sid, optimizedRoute := none }
    else { s with startMarkerId := some sid,
                  optimizedRoute := calculateOptimizedRoute d s.selectedMarkers sid }

/-- `handleDelete` from `App.tsx`: drop selected ids from the
collection; clear selection, route and start id. -/
def handleDelete (s : AppState) : AppState :=
  let selectedIds := s.selectedMarkers.map Marker.id
  { s with markers := s.markers.filter (fun m => !(selectedIds.contains m.id)),
           selectedMarkers := [],
           optimizedRoute := none,
           startMarkerId := none }

/-- The per-marker position update of `handleMarkerMove`. -/
def updatePos (id : String) (lat lng : ℚ) (m : Marker) : Marker :=
  if m.id = id then { m with latitude := lat, longitude := lng } else m

/-- `handleMarkerMove` from `App.tsx`: update the marker's position in
the collection; when the moved id is in the selection, also update the
selection and — when a start id is designated (truthy, i.e. nonempty) —
recompute the route over the updated selection from that start id. -/
def handleMarkerMove {α : Type} [LinearOrder α] (d : Marker → Marker → α)
    (id : String) (lat lng : ℚ) (s : AppState) : AppState :=
  let updatedMarkers := s.markers.map (updatePos id lat lng)
  if s.selectedMarkers.any (fun m => m.id == id) then
    let updatedSelected := s.selectedMarkers.map (updatePos id lat lng)
    match s.startMarkerId with
    | some sid =>
      if sid = "" then
        { s with markers := updatedMarkers, selectedMarkers := updatedSelected }
      else
        { s with markers := updatedMarkers, selectedMarkers := updatedSelected,
                 optimizedRoute := calculateOptimizedRoute d updatedSelected sid }
    | none => { s with markers := updatedMarkers, selectedMarkers := updatedSelected }
  else
    { s with markers := updatedMarkers }

/-- `handleUpdateIcons` from `App.tsx`: set `icon` on every collection
marker whose id is selected. -/
def handleUpdateIcons (iconUrl : String) (s : AppState) : AppState :=
  let selectedIds := s.selectedMarkers.map Marker.id
  { s with markers := s.markers.map (fun m =>
      if selectedIds.contains m.id then { m with icon := some iconUrl } else m) }

/-- Observation point of the greedy loop: current marker and remaining
pool after `k` iterations of the `while` loop, starting from current
marker `c` and pool `pool`. -/
def nnStateAt {α : Type} [LinearOrder α] (d : Marker → Marker → α) :
    Marker → List Marker → Nat → Marker × List Marker
  | c, pool, 0 => (c, pool)
  | c, [], _ + 1 => (c, [])
  | c, p :: ps, k + 1 =>
    nnStateAt d ((p :: ps).getD (nearestScan (d c) p ps).1 p)
      ((p :: ps).eraseIdx (nearestScan (d c) p ps).1) k

theorem scanNearest_fst_lt {α : Type} [LinearOrder α] (dc : Marker → α) :
    ∀ (l : List Marker) (i : Nat) (best : Nat × α), best.1 < i →
      (scanNearest dc l i best).1 < i + l.length
  | [], i, best, h => by simpa using Nat.lt_of_lt_of_le h (Nat.le_refl i)
  | m :: rest, i, best, h => by
    simp only [scanNearest]
    by_cases hc : dc m < best.2
    · simp only [hc, if_true]
      have := scanNearest_fst_lt dc rest (i + 1) (i, dc m) (Nat.lt_succ_self i)
      simp only [List.length_cons] at *
      omega
    · simp only [hc, if_false]
      have := scanNearest_fst_lt dc rest (i + 1) best (Nat.lt_succ_of_lt h)
      simp only [List.length_cons] at *
      omega

theorem nearestScan_fst_lt {α : Type} [LinearOrder α] (dc : Marker → α)
    (p : Marker) (ps : List Marker) :
    (nearestScan dc p ps).1 < (p :: ps).length := by
  have := scanNearest_fst_lt dc ps 1 (0, dc p) Nat.one_pos
  simpa [nearestScan, Nat.add_comm] using this

theorem getD_cons_eraseIdx_perm {β : Type} (dflt : β) :
    ∀ (l : List β) (i : Nat), i < l.length →
      List.Perm (l.getD i dflt :: l.eraseIdx i) l
  | [], i, h => absurd h (by simp)
  | x :: xs, 0, _ => by simp
  | x :: xs, i + 1, h => by
    have hi : i < xs.length := by simpa using h
    have ih := getD_cons_eraseIdx_perm dflt xs i hi
    simp only [List.getD_cons_succ, List.eraseIdx_cons_succ]
    exact (List.Perm.swap x (xs.getD i dflt) (xs.eraseIdx i)).trans (ih.cons x)

theorem nnLoop_perm {α : Type} [LinearOrder α] (d : Marker → Marker → α) :
    ∀ (pool : List Marker) (c : Marker), List.Perm (nnLoop d c pool) pool
  | [], _ => by simp [nnLoop]
  | p :: ps, c => by
    rw [nnLoop]
    have hlt : (nearestScan (d c) p ps).1 < (p :: ps).length :=
      nearestScan_fst_lt (d c) p ps
    have hrec := nnLoop_perm d ((p :: ps).eraseIdx (nearestScan (d c) p ps).1)
      ((p :: ps).getD (nearestScan (d c) p ps).1 p)
    exact (hrec.cons _).trans (getD_cons_eraseIdx_perm p (p :: ps) _ hlt)
termination_by pool _ => pool.length
decreasing_by
  have := List.length_eraseIdx_add_one hlt
  omega

theorem nnLoop_length {α : Type} [LinearOrder α] (d : Marker → Marker → α)
    (c : Marker) (pool : List Marker) :
    (nnLoop d c pool).length = pool.length :=
  (nnLoop_perm d pool c).length_eq

theorem scanNearest_spec {α : Type} [LinearOrder α] (dc : Marker → α) :
    ∀ (l : List Marker) (i : Nat) (best : Nat × α),
      (∀ m ∈ l, (scanNearest dc l i best).2 ≤ dc m) ∧
      (scanNearest dc l i best).2 ≤ best.2 ∧
      (scanNearest dc l i best = best ∨
        ∃ k, k < l.length ∧ (scanNearest dc l i best).1 = i + k ∧
          (scanNearest dc l i best).2 = dc (l.getD k default) ∧
          (∀ j < k, (scanNearest dc l i best).2 < dc (l.getD j default)) ∧
          (scanNearest dc l i best).2 < best.2)
  | [], i, best => by
    refine ⟨by simp, le_refl _, Or.inl rfl⟩
  | m :: rest, i, best => by
    simp only [scanNearest]
    by_cases hc : dc m < best.2
    · simp only [hc, if_true]
      obtain ⟨hall, hle, hprov⟩ := scanNearest_spec dc rest (i + 1) (i, dc m)
      refine ⟨?_, ?_, ?_⟩
      · intro x hx
        rcases List.mem_cons.mp hx with hx | hx
        · exact hx ▸ hle
        · exact hall x hx
      · exact le_of_lt (lt_of_le_of_lt hle hc)
      · right
        rcases hprov with heq | ⟨k, hk, h1, h2, h3, h4⟩
        · refine ⟨0, by simp, by simp [heq], by simp [heq], by simp, by rw [heq]; exact hc⟩
        · refine ⟨k + 1, by simpa using hk, by omega, by simpa using h2, ?_, lt_trans h4 hc⟩
          intro j hj
          match j with
          | 0 => simpa using h4
          | j + 1 => simpa using h3 j (by omega)
    · simp only [hc, if_false]
      have hbm : best.2 ≤ dc m := not_lt.mp hc
      obtain ⟨hall, hle, hprov⟩ := scanNearest_spec dc rest (i + 1) best
      refine ⟨?_, hle, ?_⟩
      · intro x hx
        rcases List.mem_cons.mp hx with hx | hx
        · exact hx ▸ le_trans hle hbm
        · exact hall x hx
      · rcases hprov with heq | ⟨k, hk, h1, h2, h3, h4⟩
        · exact Or.inl heq
        · refine Or.inr ⟨k + 1, by simpa using hk, by omega, by simpa using h2, ?_, h4⟩
          intro j hj
          match j with
          | 0 => simpa using lt_of_lt_of_le h4 hbm
          | j + 1 => simpa using h3 j (by omega)

theorem nearestScan_spec {α : Type} [LinearOrder α] (dc : Marker → α)
    (p : Marker) (ps : List Marker) :
    (nearestScan dc p ps).2 = dc ((p :: ps).getD (nearestScan dc p ps).1 default) ∧
    (∀ j < (p :: ps).length,
      (nearestScan dc p ps).2 ≤ dc ((p :: ps).getD j default)) ∧
    (∀ j < (nearestScan dc p ps).1,
      (nearestScan dc p ps).2 < dc ((p :: ps).getD j default)) := by
  obtain ⟨hall, hle, hprov⟩ := scanNearest_spec dc ps 1 (0, dc p)
  have hmemle : ∀ j, j < ps.length → (nearestScan dc p ps).2 ≤ dc (ps.getD j default) := by
    intro j hj
    have hmem : ps.getD j default ∈ ps := by
      rw [List.getD_eq_getElem _ _ hj]; exact List.getElem_mem hj
    exact hall _ hmem
  rcases hprov with heq | ⟨k, hk, h1, h2, h3, h4⟩
  · have h1 : (nearestScan dc p ps).1 = 0 := by rw [nearestScan, heq]
    have h2 : (nearestScan dc p ps).2 = dc p := by rw [nearestScan, heq]
    refine ⟨by simp [h1, h2], ?_, by simp [h1]⟩
    intro j hj
    match j with
    | 0 => simp [h2]
    | j + 1 => simpa using hmemle j (by simpa using hj)
  · have h1 : (nearestScan dc p ps).1 = k + 1 := by rw [nearestScan, h1]; omega
    have h2 : (nearestScan dc p ps).2 = dc (ps.getD k default) := by
      rw [nearestScan, h2]
    have h4 : (nearestScan dc p ps).2 < dc p := by rw [nearestScan]; exact h4
    have h3 : ∀ j < k, (nearestScan dc p ps).2 < dc (ps.getD j default) := by
      intro j hj; rw [nearestScan]; exact h3 j hj
    refine ⟨by simp [h1, h2], ?_, ?_⟩
    · intro j hj
      match j with
      | 0 => simpa using le_of_lt h4
      | j + 1 => simpa using hmemle j (by simpa using hj)
    · intro j hj
      rw [h1] at hj
      match j with
      | 0 => simpa using h4
      | j + 1 => simpa using h3 j (by omega)

theorem nnLoop_spec {α : Type} [LinearOrder α] (d : Marker → Marker → α) :
    ∀ (k : Nat) (c : Marker) (pool : List Marker), k < pool.length →
      (nnStateAt d c pool k).1 = (c :: nnLoop d c pool).getD k default ∧
      ∃ i, i < (nnStateAt d c pool k).2.length ∧
        (c :: nnLoop d c pool).getD (k + 1) default =
          (nnStateAt d c pool k).2.getD i default ∧
        (∀ j < (nnStateAt d c pool k).2.length,
          d (nnStateAt d c pool k).1 ((nnStateAt d c pool k).2.getD i default) ≤
            d (nnStateAt d c pool k).1 ((nnStateAt d c pool k).2.getD j default)) ∧
        (∀ j < i,
          d (nnStateAt d c pool k).1 ((nnStateAt d c pool k).2.getD i default) <
            d (nnStateAt d c pool k).1 ((nnStateAt d c pool k).2.getD j default))
  | 0, c, [] => fun h => absurd h (by simp)
  | k + 1, c, [] => fun h => absurd h (by simp)
  | 0, c, p :: ps => by
    intro _
    obtain ⟨hval, hmin, hfirst⟩ := nearestScan_spec (d c) p ps
    have hlt := nearestScan_fst_lt (d c) p ps
    refine ⟨by simp [nnStateAt], (nearestScan (d c) p ps).1, ?_, ?_, ?_, ?_⟩
    · simpa [nnStateAt] using hlt
    · rw [nnLoop]
      simp only [nnStateAt, List.getD_cons_succ, List.getD_cons_zero]
      rw [List.getD_eq_getElem _ _ hlt, List.getD_eq_getElem _ _ hlt]
    · intro j hj
      simp only [nnStateAt] at hj ⊢
      rw [← hval]
      exact hmin j hj
    · intro j hj
      simp only [nnStateAt] at hj ⊢
      rw [← hval]
      exact hfirst j hj
  | k + 1, c, p :: ps => by
    intro hk
    have hlt := nearestScan_fst_lt (d c) p ps
    have hrest : ((p :: ps).eraseIdx (nearestScan (d c) p ps).1).length = ps.length := by
      have := List.length_eraseIdx_add_one hlt
      simpa using this
    have hk2 : k < ((p :: ps).eraseIdx (nearestScan (d c) p ps).1).length := by
      rw [hrest]
      simpa using hk
    have ih := nnLoop_spec d k ((p :: ps).getD (nearestScan (d c) p ps).1 p)
      ((p :: ps).eraseIdx (nearestScan (d c) p ps).1) hk2
    rw [nnLoop]
    simpa only [nnStateAt, List.getD_cons_succ] using ih

theorem updatePos_id (id : String) (lat lng : ℚ) (m : Marker) :
    (updatePos id lat lng m).id = m.id := by
  unfold updatePos
  split <;> rfl

/-- Claim C1: the spec asserts `load(newMarkers)` clears selection, route
and start designation; the code (`handleDataLoaded`) only replaces the
collection. Evaluated at a state with a live selection, route and start
id, loading a fresh collection leaves all three untouched. -/
theorem C1_load_keeps_selection_route_start :
    (handleDataLoaded [⟨"b", 0, 1, none, none⟩]
      { markers := [⟨"a", 0, 0, none, none⟩],
        selectedMarkers := [⟨"a", 0, 0, none, none⟩],
        isDrawing := false,
        optimizedRoute := some [⟨"a", 0, 0, none, none⟩],
        startMarkerId := some "a" }).markers = [⟨"b", 0, 1, none, none⟩] ∧
    (handleDataLoaded [⟨"b", 0, 1, none, none⟩]
      { markers := [⟨"a", 0, 0, none, none⟩],
        selectedMarkers := [⟨"a", 0, 0, none, none⟩],
        isDrawing := false,
        optimizedRoute := some [⟨"a", 0, 0, none, none⟩],
        startMarkerId := some "a" }).selectedMarkers = [⟨"a", 0, 0, none, none⟩] ∧
    (handleDataLoaded [⟨"b", 0, 1, none, none⟩]
      { markers := [⟨"a", 0, 0, none, none⟩],
        selectedMarkers := [⟨"a", 0, 0, none, none⟩],
        isDrawing := false,
        optimizedRoute := some [⟨"a", 0, 0, none, none⟩],
        startMarkerId := some "a" }).optimizedRoute = some [⟨"a", 0, 0, none, none⟩] ∧
    (handleDataLoaded [⟨"b", 0, 1, none, none⟩]
      { markers := [⟨"a", 0, 0, none, none⟩],
        selectedMarkers := [⟨"a", 0, 0, none, none⟩],
        isDrawing := false,
        optimizedRoute := some [⟨"a", 0, 0, none, none⟩],
        startMarkerId := some "a" }).startMarkerId = some "a" :=
  ⟨rfl, rfl, rfl, rfl⟩

/-- Claim C4: a start id carried by no input marker makes the optimizer
return `none`, and the caller (`handleOptimizeRoute`) stores no route. -/
theorem C4_missing_start_id_gives_no_route {α : Type} [LinearOrder α]
    (d : Marker → Marker → α) (markers : List Marker) (s : AppState) (sid : String)
    (hm : ∀ m ∈ markers, m.id ≠ sid)
    (hs : ∀ m ∈ s.selectedMarkers, m.id ≠ sid) :
    calculateOptimizedRoute d markers sid = none ∧
    (handleOptimizeRoute d (some sid) s).optimizedRoute = none := by
  have hfind : ∀ (l : List Marker), (∀ m ∈ l, m.id ≠ sid) →
      l.find? (fun m => m.id == sid) = none := by
    intro l hl
    rw [List.find?_eq_none]
    intro x hx
    simpa using hl x hx
  constructor
  · unfold calculateOptimizedRoute
    rw [hfind markers hm]
  · unfold handleOptimizeRoute
    by_cases he : sid = ""
    · simp [he]
    · simp only [he, if_false]
      unfold calculateOptimizedRoute
      rw [hfind s.selectedMarkers hs]

/-- Claim C4 witness at a concrete selection not containing id `a`. -/
theorem C4_witness :
    calculateOptimizedRoute (fun _ _ => (0 : ℚ)) [⟨"b", 0, 1, none, none⟩] "a" = none ∧
    (handleOptimizeRoute (fun _ _ => (0 : ℚ)) (some "a")
      { markers := [⟨"b", 0, 1, none, none⟩],
        selectedMarkers := [⟨"b", 0, 1, none, none⟩],
        isDrawing := false, optimizedRoute := none,
        startMarkerId := none }).optimizedRoute = none :=
  C4_missing_start_id_gives_no_route (fun _ _ => (0 : ℚ)) [⟨"b", 0, 1, none, none⟩]
    { markers := [⟨"b", 0, 1, none, none⟩],
      selectedMarkers := [⟨"b", 0, 1, none, none⟩],
      isDrawing := false, optimizedRoute := none, startMarkerId := none }
    "a" (by decide) (by decide)

/-- Claim C5: after `deleteSelected` no marker with a selected id
remains, every unselected marker survives, and selection, route and
start designation are cleared. -/
theorem C5_delete_selected_clears (s : AppState) :
    (∀ m ∈ (handleDelete s).markers, m.id ∉ s.selectedMarkers.map Marker.id) ∧
    (∀ m ∈ s.markers, m.id ∉ s.selectedMarkers.map Marker.id →
      m ∈ (handleDelete s).markers) ∧
    (handleDelete s).selectedMarkers = [] ∧
    (handleDelete s).optimizedRoute = none ∧
    (handleDelete s).startMarkerId = none := by
  refine ⟨?_, ?_, rfl, rfl, rfl⟩
  · intro m hm
    simp only [handleDelete, List.mem_filter] at hm
    simpa using hm.2
  · intro m hm hnot
    simp only [handleDelete, List.mem_filter]
    exact ⟨hm, by simpa using hnot⟩

/-- Claim C5 witness at a concrete two-marker state with one selected. -/
theorem C5_witness :
    (∀ m ∈ (handleDelete
      { markers := [⟨"a", 0, 0, none, none⟩, ⟨"b", 0, 1, none, none⟩],
        selectedMarkers := [⟨"a", 0, 0, none, none⟩],
        isDrawing := false,
        optimizedRoute := some [⟨"a", 0, 0, none, none⟩],
        startMarkerId := some "a" }).markers,
      m.id ∉ ([⟨"a", 0, 0, none, none⟩] : List Marker).map Marker.id) ∧
    (∀ m ∈ ([⟨"a", 0, 0, none, none⟩, ⟨"b", 0, 1, none, none⟩] : List Marker),
      m.id ∉ ([⟨"a", 0, 0, none, none⟩] : List Marker).map Marker.id →
      m ∈ (handleDelete
      { markers := [⟨"a", 0, 0, none, none⟩, ⟨"b", 0, 1, none, none⟩],
        selectedMarkers := [⟨"a", 0, 0, none, none⟩],
        isDrawing := false,
        optimizedRoute := some [⟨"a", 0, 0, none, none⟩],
        startMarkerId := some "a" }).markers) ∧
    (handleDelete
      { markers := [⟨"a", 0, 0, none, none⟩, ⟨"b", 0, 1, none, none⟩],
        selectedMarkers := [⟨"a", 0, 0, none, none⟩],
        isDrawing := false,
        optimizedRoute := some [⟨"a", 0, 0, none, none⟩],
        startMarkerId := some "a" }).selectedMarkers = [] ∧
    (handleDelete
      { markers := [⟨"a", 0, 0, none, none⟩, ⟨"b", 0, 1, none, none⟩],
        selectedMarkers := [⟨"a", 0, 0, none, none⟩],
        isDrawing := false,
        optimizedRoute := some [⟨"a", 0, 0, none, none⟩],
        startMarkerId := some "a" }).optimizedRoute = none ∧
    (handleDelete
      { markers := [⟨"a", 0, 0, none, none⟩, ⟨"b", 0, 1, none, none⟩],
        selectedMarkers := [⟨"a", 0, 0, none, none⟩],
        isDrawing := false,
        optimizedRoute := some [⟨"a", 0, 0, none, none⟩],
        startMarkerId := some "a" }).startMarkerId = none :=
  C5_delete_selected_clears
    { markers := [⟨"a", 0, 0, none, none⟩, ⟨"b", 0, 1, none, none⟩],
      selectedMarkers := [⟨"a", 0, 0, none, none⟩],
      isDrawing := false,
      optimizedRoute := some [⟨"a", 0, 0, none, none⟩],
      startMarkerId := some "a" }

theorem filter_id_eq_singleton :
    ∀ (markers : List Marker) (sid : String) (s : Marker),
      (markers.map Marker.id).Nodup →
      markers.find? (fun m => m.id == sid) = some s →
      markers.filter (fun m => m.id == sid) = [s]
  | [], _, _, _, hf => by simp at hf
  | x :: xs, sid, s, hnd, hf => by
    have hnd1 : (x.id :: xs.map Marker.id).Nodup := by simpa using hnd
    rcases List.nodup_cons.mp hnd1 with ⟨hx_not, hnd2⟩
    by_cases hx : x.id = sid
    · have hs : s = x := by
        rw [List.find?_cons_of_pos _ (by simpa using hx)] at hf
        exact (Option.some.injEq _ _ ▸ hf).symm
      have htail : xs.filter (fun m => m.id == sid) = [] := by
        rw [List.filter_eq_nil_iff]
        intro m hm
        simp only [beq_iff_eq]
        intro he
        exact hx_not (by rw [hx, ← he]; exact List.mem_map_of_mem Marker.id hm)
      rw [List.filter_cons_of_pos (by simpa using hx), htail, hs]
    · rw [List.find?_cons_of_neg _ (by simpa using hx)] at hf
      rw [List.filter_cons_of_neg (by simpa using hx)]
      exact filter_id_eq_singleton xs sid s hnd2 hf

/-- Claim C2: with pairwise-distinct ids and a present start id, the
optimizer succeeds, its output is a permutation of the input, and its
head is the marker carrying the start id. -/
theorem C2_route_is_permutation_with_start_head {α : Type} [LinearOrder α]
    (d : Marker → Marker → α) (markers : List Marker) (startId : String)
    (_hne : markers ≠ [])
    (hnd : (markers.map Marker.id).Nodup)
    (hmem : ∃ m ∈ markers, m.id = startId) :
    ∃ r, calculateOptimizedRoute d markers startId = some r ∧
      List.Perm r markers ∧ r.length = markers.length ∧
      ∃ m, r.head? = some m ∧ m.id = startId := by
  obtain ⟨m0, hm0, hid0⟩ := hmem
  have hne2 : markers.find? (fun m => m.id == startId) ≠ none := by
    rw [Ne, List.find?_eq_none]
    push_neg
    exact ⟨m0, hm0, by simpa using hid0⟩
  obtain ⟨s, hf⟩ := Option.ne_none_iff_exists'.mp hne2
  have hsid : s.id = startId := by simpa using List.find?_some hf
  have hsingle := filter_id_eq_singleton markers startId s hnd hf
  have hperm0 : List.Perm (markers.filter (fun m => m.id == startId) ++
      markers.filter (fun m => !(m.id == startId))) markers :=
    List.filter_append_perm _ markers
  rw [hsingle] at hperm0
  have hp : List.Perm
      (s :: nnLoop d s (markers.filter (fun m => !(m.id == startId)))) markers :=
    ((nnLoop_perm d _ s).cons s).trans hperm0
  refine ⟨_, ?_, hp, hp.length_eq, s, rfl, hsid⟩
  unfold calculateOptimizedRoute
  rw [hf]

/-- Claim C2 witness on a concrete two-marker input. -/
theorem C2_witness :
    ∃ r, calculateOptimizedRoute (fun _ _ => (0 : ℚ))
        [⟨"a", 0, 0, none, none⟩, ⟨"b", 0, 1, none, none⟩] "a" = some r ∧
      List.Perm r [⟨"a", 0, 0, none, none⟩, ⟨"b", 0, 1, none, none⟩] ∧
      r.length = ([⟨"a", 0, 0, none, none⟩, ⟨"b", 0, 1, none, none⟩] : List Marker).length ∧
      ∃ m, r.head? = some m ∧ m.id = "a" :=
  C2_route_is_permutation_with_start_head (fun _ _ => (0 : ℚ))
    [⟨"a", 0, 0, none, none⟩, ⟨"b", 0, 1, none, none⟩] "a"
    (by decide) (by decide) (by decide)

/-- Claim C6: when a start id is designated and the moved id is
selected, `move` rewrites the position in collection and selection and
synchronously recomputes the route over the updated selection from the
same start id. -/
theorem C6_move_selected_recomputes_route {α : Type} [LinearOrder α]
    (d : Marker → Marker → α) (s : AppState) (id : String) (lat lng : ℚ)
    (sid : String)
    (hstart : s.startMarkerId = some sid) (hsid : sid ≠ "")
    (hsel : ∃ m ∈ s.selectedMarkers, m.id = id) :
    (handleMarkerMove d id lat lng s).markers =
      s.markers.map (updatePos id lat lng) ∧
    (handleMarkerMove d id lat lng s).selectedMarkers =
      s.selectedMarkers.map (updatePos id lat lng) ∧
    (∀ m ∈ (handleMarkerMove d id lat lng s).markers,
      m.id = id → m.latitude = lat ∧ m.longitude = lng) ∧
    (∀ m ∈ (handleMarkerMove d id lat lng s).selectedMarkers,
      m.id = id → m.latitude = lat ∧ m.longitude = lng) ∧
    (handleMarkerMove d id lat lng s).optimizedRoute =
      calculateOptimizedRoute d (s.selectedMarkers.map (updatePos id lat lng)) sid ∧
    (handleMarkerMove d id lat lng s).startMarkerId = some sid := by
  have hany : s.selectedMarkers.any (fun m => m.id == id) = true := by
    rw [List.any_eq_true]
    obtain ⟨m, hm, he⟩ := hsel
    exact ⟨m, hm, by simpa using he⟩
  have hpoint : ∀ (l : List Marker) (m : Marker),
      m ∈ l.map (updatePos id lat lng) → m.id = id →
      m.latitude = lat ∧ m.longitude = lng := by
    intro l m hm hid
    obtain ⟨m0, _, rfl⟩ := List.mem_map.mp hm
    by_cases h0 : m0.id = id
    · unfold updatePos
      rw [if_pos h0]
      exact ⟨rfl, rfl⟩
    · rw [updatePos_id] at hid
      exact absurd hid h0
  have hmm : handleMarkerMove d id lat lng s =
      { s with markers := s.markers.map (updatePos id lat lng),
               selectedMarkers := s.selectedMarkers.map (updatePos id lat lng),
               optimizedRoute := calculateOptimizedRoute d
                 (s.selectedMarkers.map (updatePos id lat lng)) sid } := by
    unfold handleMarkerMove
    rw [hstart]
    simp [hany, hsid]
  rw [hmm]
  exact ⟨rfl, rfl, fun m hm => hpoint s.markers m hm,
    fun m hm => hpoint s.selectedMarkers m hm, rfl, by simpa using hstart⟩

/-- Claim C6 witness at a concrete routed one-marker selection. -/
theorem C6_witness :
    (handleMarkerMove (fun _ _ => (0 : ℚ)) "a" 2 3
      { markers := [⟨"a", 0, 0, none, none⟩],
        selectedMarkers := [⟨"a", 0, 0, none, none⟩],
        isDrawing := false,
        optimizedRoute := some [⟨"a", 0, 0, none, none⟩],
        startMarkerId := some "a" }).markers =
      ([⟨"a", 0, 0, none, none⟩] : List Marker).map (updatePos "a" 2 3) ∧
    (handleMarkerMove (fun _ _ => (0 : ℚ)) "a" 2 3
      { markers := [⟨"a", 0, 0, none, none⟩],
        selectedMarkers := [⟨"a", 0, 0, none, none⟩],
        isDrawing := false,
        optimizedRoute := some [⟨"a", 0, 0, none, none⟩],
        startMarkerId := some "a" }).selectedMarkers =
      ([⟨"a", 0, 0, none, none⟩] : List Marker).map (updatePos "a" 2 3) ∧
    (∀ m ∈ (handleMarkerMove (fun _ _ => (0 : ℚ)) "a" 2 3
      { markers := [⟨"a", 0, 0, none, none⟩],
        selectedMarkers := [⟨"a", 0, 0, none, none⟩],
        isDrawing := false,
        optimizedRoute := some [⟨"a", 0, 0, none, none⟩],
        startMarkerId := some "a" }).markers,
      m.id = "a" → m.latitude = 2 ∧ m.longitude = 3) ∧
    (∀ m ∈ (handleMarkerMove (fun _ _ => (0 : ℚ)) "a" 2 3
      { markers := [⟨"a", 0, 0, none, none⟩],
        selectedMarkers := [⟨"a", 0, 0, none, none⟩],
        isDrawing := false,
        optimizedRoute := some [⟨"a", 0, 0, none, none⟩],
        startMarkerId := some "a" }).selectedMarkers,
      m.id = "a" → m.latitude = 2 ∧ m.longitude = 3) ∧
    (handleMarkerMove (fun _ _ => (0 : ℚ)) "a" 2 3
      { markers := [⟨"a", 0, 0, none, none⟩],
        selectedMarkers := [⟨"a", 0, 0, none, none⟩],
        isDrawing := false,
        optimizedRoute := some [⟨"a", 0, 0, none, none⟩],
        startMarkerId := some "a" }).optimizedRoute =
      calculateOptimizedRoute (fun _ _ => (0 : ℚ))
        (([⟨"a", 0, 0, none, none⟩] : List Marker).map (updatePos "a" 2 3)) "a" ∧
    (handleMarkerMove (fun _ _ => (0 : ℚ)) "a" 2 3
      { markers := [⟨"a", 0, 0, none, none⟩],
        selectedMarkers := [⟨"a", 0, 0, none, none⟩],
        isDrawing := false,
        optimizedRoute := some [⟨"a", 0, 0, none, none⟩],
        startMarkerId := some "a" }).startMarkerId = some "a" :=
  C6_move_selected_recomputes_route (fun _ _ => (0 : ℚ))
    { markers := [⟨"a", 0, 0, none, none⟩],
      selectedMarkers := [⟨"a", 0, 0, none, none⟩],
      isDrawing := false,
      optimizedRoute := some [⟨"a", 0, 0, none, none⟩],
      startMarkerId := some "a" }
    "a" 2 3 "a" rfl (by decide) (by decide)

/-- Claim C7: `move` is idempotent — applying it twice with the same
arguments yields exactly the same state as applying it once. -/
theorem C7_move_idempotent {α : Type} [LinearOrder α]
    (d : Marker → Marker → α) (id : String) (lat lng : ℚ) (s : AppState) :
    handleMarkerMove d id lat lng (handleMarkerMove d id lat lng s) =
      handleMarkerMove d id lat lng s := by
  have hupd : ∀ m, updatePos id lat lng (updatePos id lat lng m) =
      updatePos id lat lng m := by
    intro m
    unfold updatePos
    by_cases h : m.id = id
    · simp [h]
    · simp [h]
  have hmap : ∀ l : List Marker,
      (l.map (updatePos id lat lng)).map (updatePos id lat lng) =
        l.map (updatePos id lat lng) := by
    intro l
    rw [List.map_map]
    exact List.map_congr_left (fun m _ => hupd m)
  have hany : ∀ l : List Marker,
      (l.map (updatePos id lat lng)).any (fun m => m.id == id) =
        l.any (fun m => m.id == id) := by
    intro l
    rw [List.any_map]
    congr 1
    funext m
    simp [Function.comp, updatePos_id]
  obtain ⟨mk, sel, dr, rt, st⟩ := s
  by_cases h : sel.any (fun m => m.id == id)
  · cases st with
    | none => simp [handleMarkerMove, h, hany, hmap]
    | some sid =>
      by_cases hsid : sid = ""
      · simp [handleMarkerMove, h, hany, hmap, hsid]
      · simp [handleMarkerMove, h, hany, hmap, hsid]
  · have h2 : sel.any (fun m => m.id == id) = false := by
      revert h
      cases sel.any (fun m => m.id == id) <;> simp
    simp [handleMarkerMove, h2, hmap]

/-- Claim C8: tagging sets `icon` to the given reference exactly on the
collection markers whose id is selected, position by position, and
leaves every other marker entirely unchanged. -/
theorem C8_tag_icon_exactly_selected (s : AppState) (url : String) :
    (handleUpdateIcons url s).markers.length = s.markers.length ∧
    ∀ k, k < s.markers.length →
      ((s.markers.getD k default).id ∈ s.selectedMarkers.map Marker.id →
        (handleUpdateIcons url s).markers.getD k default =
          { s.markers.getD k default with icon := some url }) ∧
      ((s.markers.getD k default).id ∉ s.selectedMarkers.map Marker.id →
        (handleUpdateIcons url s).markers.getD k default =
          s.markers.getD k default) := by
  have hmk : (handleUpdateIcons url s).markers = s.markers.map (fun m =>
      if (s.selectedMarkers.map Marker.id).contains m.id then
        { m with icon := some url } else m) := rfl
  constructor
  · rw [hmk, List.length_map]
  · intro k hk
    have hget : (handleUpdateIcons url s).markers.getD k default =
        (if (s.selectedMarkers.map Marker.id).contains
            (s.markers.getD k default).id then
          { s.markers.getD k default with icon := some url }
        else s.markers.getD k default) := by
      rw [hmk, List.getD_eq_getElem _ _ (by rw [List.length_map]; exact hk),
        List.getD_eq_getElem _ _ hk, List.getElem_map]
    constructor
    · intro hmem
      rw [hget, if_pos (by simpa using hmem)]
    · intro hmem
      rw [hget, if_neg (by simpa using hmem)]

/-- Claim C8 witness: one selected and one unselected marker. -/
theorem C8_witness :
    (handleUpdateIcons "u"
      { markers := [⟨"a", 0, 0, none, none⟩, ⟨"b", 0, 1, none, none⟩],
        selectedMarkers := [⟨"a", 0, 0, none, none⟩],
        isDrawing := false, optimizedRoute := none,
        startMarkerId := none }).markers.length =
      ([⟨"a", 0, 0, none, none⟩, ⟨"b", 0, 1, none, none⟩] : List Marker).length ∧
    ∀ k, k < ([⟨"a", 0, 0, none, none⟩, ⟨"b", 0, 1, none, none⟩] : List Marker).length →
      ((([⟨"a", 0, 0, none, none⟩, ⟨"b", 0, 1, none, none⟩] : List Marker).getD k default).id ∈
          ([⟨"a", 0, 0, none, none⟩] : List Marker).map Marker.id →
        (handleUpdateIcons "u"
          { markers := [⟨"a", 0, 0, none, none⟩, ⟨"b", 0, 1, none, none⟩],
            selectedMarkers := [⟨"a", 0, 0, none, none⟩],
            isDrawing := false, optimizedRoute := none,
            startMarkerId := none }).markers.getD k default =
          { ([⟨"a", 0, 0, none, none⟩, ⟨"b", 0, 1, none, none⟩] : List Marker).getD k default
            with icon := some "u" }) ∧
      ((([⟨"a", 0, 0, none, none⟩, ⟨"b", 0, 1, none, none⟩] : List Marker).getD k default).id ∉
          ([⟨"a", 0, 0, none, none⟩] : List Marker).map Marker.id →
        (handleUpdateIcons "u"
          { markers := [⟨"a", 0, 0, none, none⟩, ⟨"b", 0, 1, none, none⟩],
            selectedMarkers := [⟨"a", 0, 0, none, none⟩],
            isDrawing := false, optimizedRoute := none,
            startMarkerId := none }).markers.getD k default =
          ([⟨"a", 0, 0, none, none⟩, ⟨"b", 0, 1, none, none⟩] : List Marker).getD k default) :=
  C8_tag_icon_exactly_selected
    { markers := [⟨"a", 0, 0, none, none⟩, ⟨"b", 0, 1, none, none⟩],
      selectedMarkers := [⟨"a", 0, 0, none, none⟩],
      isDrawing := false, optimizedRoute := none, startMarkerId := none } "u"

/-- Claim C9 counterexample: tagging with an icon reference the selected
marker already carries makes the selection copy and the canonical marker
agree, so "the selection icon differs from the canonical icon" fails as
stated. -/
theorem C9_counterexample :
    ¬ (∀ m ∈ (handleUpdateIcons "x"
        { markers := [⟨"a", 0, 0, none, some "x"⟩],
          selectedMarkers := [⟨"a", 0, 0, none, some "x"⟩],
          isDrawing := false, optimizedRoute := none,
          startMarkerId := none }).selectedMarkers,
      ∀ m2 ∈ (handleUpdateIcons "x"
        { markers := [⟨"a", 0, 0, none, some "x"⟩],
          selectedMarkers := [⟨"a", 0, 0, none, some "x"⟩],
          isDrawing := false, optimizedRoute := none,
          startMarkerId := none }).markers,
      m2.id = m.id → m.icon ≠ m2.icon) := by decide

/-- Claim C9 (amended): tagging leaves the selection array untouched,
so a selected marker whose stored icon differs from the applied
reference disagrees with its canonical counterpart immediately after
tagging (the selection is a stale copy, not a view). -/
theorem C9_selection_stale_copy (s : AppState) (url : String) :
    (handleUpdateIcons url s).selectedMarkers = s.selectedMarkers ∧
    ∀ m ∈ s.selectedMarkers, ∀ m2 ∈ (handleUpdateIcons url s).markers,
      m2.id = m.id → m.icon ≠ some url → m.icon ≠ m2.icon := by
  refine ⟨rfl, ?_⟩
  intro m hm m2 hm2 hid hicon
  obtain ⟨m0, _, rfl⟩ := List.mem_map.mp hm2
  have hids : (if (s.selectedMarkers.map Marker.id).contains m0.id then
      { m0 with icon := some url } else m0).id = m0.id := by
    split <;> rfl
  rw [hids] at hid
  have hcon : (s.selectedMarkers.map Marker.id).contains m0.id = true := by
    have hmem : m0.id ∈ s.selectedMarkers.map Marker.id := by
      rw [hid]
      exact List.mem_map_of_mem Marker.id hm
    simpa using hmem
  rw [if_pos hcon]
  simpa using hicon

/-- Claim C9 witness: selected marker with a different prior icon. -/
theorem C9_witness :
    (handleUpdateIcons "u"
      { markers := [⟨"a", 0, 0, none, some "x"⟩],
        selectedMarkers := [⟨"a", 0, 0, none, some "x"⟩],
        isDrawing := false, optimizedRoute := none,
        startMarkerId := none }).selectedMarkers =
      [⟨"a", 0, 0, none, some "x"⟩] ∧
    ∀ m ∈ ([⟨"a", 0, 0, none, some "x"⟩] : List Marker),
      ∀ m2 ∈ (handleUpdateIcons "u"
        { markers := [⟨"a", 0, 0, none, some "x"⟩],
          selectedMarkers := [⟨"a", 0, 0, none, some "x"⟩],
          isDrawing := false, optimizedRoute := none,
          startMarkerId := none }).markers,
      m2.id = m.id → m.icon ≠ some "u" → m.icon ≠ m2.icon :=
  C9_selection_stale_copy
    { markers := [⟨"a", 0, 0, none, some "x"⟩],
      selectedMarkers := [⟨"a", 0, 0, none, some "x"⟩],
      isDrawing := false, optimizedRoute := none, startMarkerId := none } "u"

/-- Claim C10 counterexample: when a stale selection still holds an id
that is absent from the canonical collection, `move` on that id rewrites
the selection, so the state does change. -/
theorem C10_counterexample :
    (∀ m ∈ ([⟨"b", 0, 0, none, none⟩] : List Marker), m.id ≠ "a") ∧
    handleMarkerMove (fun _ _ => (0 : ℚ)) "a" 1 1
      { markers := [⟨"b", 0, 0, none, none⟩],
        selectedMarkers := [⟨"a", 0, 0, none, none⟩],
        isDrawing := false, optimizedRoute := none,
        startMarkerId := none } ≠
      { markers := [⟨"b", 0, 0, none, none⟩],
        selectedMarkers := [⟨"a", 0, 0, none, none⟩],
        isDrawing := false, optimizedRoute := none,
        startMarkerId := none } := by decide

/-- Claim C10 (amended): `move` with an id held by no canonical marker
and no selection member leaves the whole state unchanged. -/
theorem C10_move_unknown_id_noop {α : Type} [LinearOrder α]
    (d : Marker → Marker → α) (s : AppState) (id : String) (lat lng : ℚ)
    (hm : ∀ m ∈ s.markers, m.id ≠ id)
    (hs : ∀ m ∈ s.selectedMarkers, m.id ≠ id) :
    handleMarkerMove d id lat lng s = s := by
  have hany : s.selectedMarkers.any (fun m => m.id == id) = false := by
    rw [List.any_eq_false]
    intro m hmem
    simpa using hs m hmem
  have hmap : s.markers.map (updatePos id lat lng) = s.markers := by
    have h1 : s.markers.map (updatePos id lat lng) = s.markers.map (fun m => m) :=
      List.map_congr_left (fun m hmem => by
        unfold updatePos
        rw [if_neg (hm m hmem)])
    rw [h1, List.map_id']
  unfold handleMarkerMove
  rw [hany]
  simp only [Bool.false_eq_true, if_false, hmap]

/-- Claim C10 witness: moving an id absent from both lists is a no-op. -/
theorem C10_witness :
    handleMarkerMove (fun _ _ => (0 : ℚ)) "c" 1 1
      { markers := [⟨"b", 0, 0, none, none⟩],
        selectedMarkers := [⟨"b", 0, 0, none, none⟩],
        isDrawing := false, optimizedRoute := none,
        startMarkerId := none } =
      { markers := [⟨"b", 0, 0, none, none⟩],
        selectedMarkers := [⟨"b", 0, 0, none, none⟩],
        isDrawing := false, optimizedRoute := none,
        startMarkerId := none } :=
  C10_move_unknown_id_noop (fun _ _ => (0 : ℚ))
    { markers := [⟨"b", 0, 0, none, none⟩],
      selectedMarkers := [⟨"b", 0, 0, none, none⟩],
      isDrawing := false, optimizedRoute := none, startMarkerId := none }
    "c" 1 1 (by decide) (by decide)

theorem nnLoop_singleton {α : Type} [LinearOrder α]
    (d : Marker → Marker → α) (c m : Marker) : nnLoop d c [m] = [m] := by
  rw [nnLoop]
  norm_num [nearestScan, scanNearest]
  rw [nnLoop]

/-- Claim C3: in the haversine-instantiated optimizer, the marker at
every output position `k ≥ 1` belongs to the remaining pool of that
step, its haversine distance from the marker at position `k - 1` is
minimal over the pool, and it strictly beats every pool member listed
before it — i.e. ties go to the first-encountered pool member. -/
theorem C3_route_step_picks_first_nearest
    (markers : List Marker) (startId : String) (s : Marker) (r : List Marker)
    (hf : markers.find? (fun m => m.id == startId) = some s)
    (hr : calculateOptimizedRoute getDistance markers startId = some r)
    (k : Nat) (hk1 : 1 ≤ k) (hk : k < r.length) :
    (nnStateAt getDistance s
        (markers.filter (fun m => !(m.id == startId))) (k - 1)).1 =
      r.getD (k - 1) default ∧
    ∃ i, i < (nnStateAt getDistance s
        (markers.filter (fun m => !(m.id == startId))) (k - 1)).2.length ∧
      r.getD k default =
        (nnStateAt getDistance s
          (markers.filter (fun m => !(m.id == startId))) (k - 1)).2.getD i default ∧
      (∀ j < (nnStateAt getDistance s
          (markers.filter (fun m => !(m.id == startId))) (k - 1)).2.length,
        getDistance (r.getD (k - 1) default)
            ((nnStateAt getDistance s
              (markers.filter (fun m => !(m.id == startId))) (k - 1)).2.getD i default) ≤
          getDistance (r.getD (k - 1) default)
            ((nnStateAt getDistance s
              (markers.filter (fun m => !(m.id == startId))) (k - 1)).2.getD j default)) ∧
      (∀ j < i,
        getDistance (r.getD (k - 1) default)
            ((nnStateAt getDistance s
              (markers.filter (fun m => !(m.id == startId))) (k - 1)).2.getD i default) <
          getDistance (r.getD (k - 1) default)
            ((nnStateAt getDistance s
              (markers.filter (fun m => !(m.id == startId))) (k - 1)).2.getD j default)) := by
  have hreq : r = s :: nnLoop getDistance s
      (markers.filter (fun m => !(m.id == startId))) := by
    unfold calculateOptimizedRoute at hr
    rw [hf] at hr
    exact (Option.some.injEq _ _ ▸ hr).symm
  subst hreq
  have hk2 : k - 1 < (markers.filter (fun m => !(m.id == startId))).length := by
    have hlen := nnLoop_length getDistance s (markers.filter (fun m => !(m.id == startId)))
    simp only [List.length_cons] at hk
    omega
  obtain ⟨h1, i, hi, h2, h3, h4⟩ :=
    nnLoop_spec getDistance (k - 1) s (markers.filter (fun m => !(m.id == startId))) hk2
  have hk3 : k - 1 + 1 = k := by omega
  rw [hk3] at h2
  refine ⟨h1, i, hi, h2, ?_, ?_⟩
  · intro j hj
    rw [← h1]
    exact h3 j hj
  · intro j hj
    rw [← h1]
    exact h4 j hj

/-- Claim C3 witness on the two-marker input `a`, `b` with start `a`,
at output position `k = 1`. -/
theorem C3_witness :
    (nnStateAt getDistance ⟨"a", 0, 0, none, none⟩
        (([⟨"a", 0, 0, none, none⟩, ⟨"b", 0, 1, none, none⟩] : List Marker).filter
          (fun m => !(m.id == "a"))) 0).1 =
      ([⟨"a", 0, 0, none, none⟩, ⟨"b", 0, 1, none, none⟩] : List Marker).getD 0 default ∧
    ∃ i, i < (nnStateAt getDistance ⟨"a", 0, 0, none, none⟩
        (([⟨"a", 0, 0, none, none⟩, ⟨"b", 0, 1, none, none⟩] : List Marker).filter
          (fun m => !(m.id == "a"))) 0).2.length ∧
      ([⟨"a", 0, 0, none, none⟩, ⟨"b", 0, 1, none, none⟩] : List Marker).getD 1 default =
        (nnStateAt getDistance ⟨"a", 0, 0, none, none⟩
          (([⟨"a", 0, 0, none, none⟩, ⟨"b", 0, 1, none, none⟩] : List Marker).filter
            (fun m => !(m.id == "a"))) 0).2.getD i default ∧
      (∀ j < (nnStateAt getDistance ⟨"a", 0, 0, none, none⟩
          (([⟨"a", 0, 0, none, none⟩, ⟨"b", 0, 1, none, none⟩] : List Marker).filter
            (fun m => !(m.id == "a"))) 0).2.length,
        getDistance (([⟨"a", 0, 0, none, none⟩, ⟨"b", 0, 1, none, none⟩] : List Marker).getD 0 default)
            ((nnStateAt getDistance ⟨"a", 0, 0, none, none⟩
              (([⟨"a", 0, 0, none, none⟩, ⟨"b", 0, 1, none, none⟩] : List Marker).filter
                (fun m => !(m.id == "a"))) 0).2.getD i default) ≤
          getDistance (([⟨"a", 0, 0, none, none⟩, ⟨"b", 0, 1, none, none⟩] : List Marker).getD 0 default)
            ((nnStateAt getDistance ⟨"a", 0, 0, none, none⟩
              (([⟨"a", 0, 0, none, none⟩, ⟨"b", 0, 1, none, none⟩] : List Marker).filter
                (fun m => !(m.id == "a"))) 0).2.getD j default)) ∧
      (∀ j < i,
        getDistance (([⟨"a", 0, 0, none, none⟩, ⟨"b", 0, 1, none, none⟩] : List Marker).getD 0 default)
            ((nnStateAt getDistance ⟨"a", 0, 0, none, none⟩
              (([⟨"a", 0, 0, none, none⟩, ⟨"b", 0, 1, none, none⟩] : List Marker).filter
                (fun m => !(m.id == "a"))) 0).2.getD i default) <
          getDistance (([⟨"a", 0, 0, none, none⟩, ⟨"b", 0, 1, none, none⟩] : List Marker).getD 0 default)
            ((nnStateAt getDistance ⟨"a", 0, 0, none, none⟩
              (([⟨"a", 0, 0, none, none⟩, ⟨"b", 0, 1, none, none⟩] : List Marker).filter
                (fun m => !(m.id == "a"))) 0).2.getD j default)) := by
  have hfa : ([⟨"a", 0, 0, none, none⟩, ⟨"b", 0, 1, none, none⟩] : List Marker).find?
      (fun m => m.id == "a") = some ⟨"a", 0, 0, none, none⟩ := by decide
  have hfb : ([⟨"a", 0, 0, none, none⟩, ⟨"b", 0, 1, none, none⟩] : List Marker).filter
      (fun m => !(m.id == "a")) = [⟨"b", 0, 1, none, none⟩] := by decide
  have hr : calculateOptimizedRoute getDistance
      [⟨"a", 0, 0, none, none⟩, ⟨"b", 0, 1, none, none⟩] "a" =
      some [⟨"a", 0, 0, none, none⟩, ⟨"b", 0, 1, none, none⟩] := by
    unfold calculateOptimizedRoute
    rw [hfa]
    simp only [hfb, nnLoop_singleton]
  exact C3_route_step_picks_first_nearest
    [⟨"a", 0, 0, none, none⟩, ⟨"b", 0, 1, none, none⟩] "a"
    ⟨"a", 0, 0, none, none⟩ [⟨"a", 0, 0, none, none⟩, ⟨"b", 0, 1, none, none⟩]
    hfa hr 1 (by decide) (by decide)
